import Mathlib

/-!
Verification development for the SatFinder Pro geometry engine
(`src/js/ar.js`, class `SatelliteCalculator`).

The JavaScript source computes with IEEE-754 doubles.  We embed the
computations over the exact reals, together with an explicit value type
`JsNum` that records the IEEE special values (`+Infinity`, `-Infinity`,
`NaN`) which the source can produce through its unguarded divisions
(`sin(Δλ)/tan(φ)` in `calculateLNBTilt` and the
`(cosGamma - 1/ratio)/sqrt(1 - cosGamma²)` quotient in
`calculateElevation`).  Division of a nonzero real by zero yields a signed
infinity (the zero denominators that actually occur in the source arise
from `Math.sqrt(0)` and `Math.tan(0)`, both of which are IEEE `+0`), and
`0/0` yields `NaN`; `Math.atan` maps `±Infinity` to `±π/2` and `NaN` to
`NaN`.  All other arithmetic in the source stays on finite values and is
embedded as exact real arithmetic.
-/

open Real

noncomputable section

/-- An IEEE-style JavaScript number: a finite real, a signed infinity, or NaN. -/
inductive JsNum where
  | fin : ℝ → JsNum
  | posInf : JsNum
  | negInf : JsNum
  | nan : JsNum

namespace JsNum

/-- The JavaScript comparison `n > t` for a threshold `t` (a finite real):
`NaN > t` is false, `+Infinity > t` is true, `-Infinity > t` is false. -/
def gtR : JsNum → ℝ → Prop
  | fin r, t => t < r
  | posInf, _ => True
  | negInf, _ => False
  | nan, _ => False

/-- The JavaScript comparison `a < b` on two JS numbers (NaN incomparable). -/
def ltJ : JsNum → JsNum → Prop
  | fin a, fin b => a < b
  | fin _, posInf => True
  | negInf, fin _ => True
  | negInf, posInf => True
  | _, _ => False

/-- The JavaScript comparison `a <= b` on two JS numbers (NaN incomparable). -/
def leJ : JsNum → JsNum → Prop
  | fin a, fin b => a ≤ b
  | fin _, posInf => True
  | negInf, fin _ => True
  | negInf, posInf => True
  | posInf, posInf => True
  | negInf, negInf => True
  | _, _ => False

end JsNum

/-- JavaScript division of two finite reals: a finite quotient when the
denominator is nonzero; `±Infinity` for `(±a)/0` with `a ≠ 0`
(denominators reaching zero in this source are IEEE `+0`); `NaN` for `0/0`. -/
def jsDiv (a b : ℝ) : JsNum :=
  if b = 0 then (if 0 < a then .posInf else if a < 0 then .negInf else .nan)
  else .fin (a / b)

/-- `Math.atan` extended to JS numbers: `atan(±Infinity) = ±π/2`, `atan(NaN) = NaN`. -/
def jsAtan : JsNum → JsNum
  | .fin r => .fin (Real.arctan r)
  | .posInf => .fin (Real.pi / 2)
  | .negInf => .fin (-(Real.pi / 2))
  | .nan => .nan

/-- JavaScript `Math.trunc`-style integer part used by the `%` operator:
round toward zero. -/
def jsTrunc (x : ℝ) : ℤ := if 0 ≤ x then ⌊x⌋ else ⌈x⌉

/-- The JavaScript remainder operator `a % b`: `a - b * trunc(a / b)`
(result carries the sign of the dividend). -/
def jsRem (a b : ℝ) : ℝ := a - b * (jsTrunc (a / b) : ℝ)

/-- JavaScript `Math.round`: nearest integer, ties rounded toward `+Infinity`;
on the reals this is `⌊x + 1/2⌋`. -/
def jsRound (x : ℝ) : ℝ := (⌊x + 1 / 2⌋ : ℤ)

namespace SatelliteCalculator

/-- `this.EARTH_RADIUS` — Earth's radius in km. -/
def EARTH_RADIUS : ℝ := 6378.137

/-- `this.GEO_ALTITUDE` — geostationary orbit altitude in km. -/
def GEO_ALTITUDE : ℝ := 35786

/-- `this.GEO_RADIUS` — geostationary orbit radius from Earth's center. -/
def GEO_RADIUS : ℝ := EARTH_RADIUS + GEO_ALTITUDE

/-- `toRadians(degrees)`: `degrees * Math.PI / 180`. -/
def toRadians (degrees : ℝ) : ℝ := degrees * Real.pi / 180

/-- `toDegrees(radians)`: `radians * 180 / Math.PI`. -/
def toDegrees (radians : ℝ) : ℝ := radians * 180 / Real.pi

/-- `toDegrees` lifted to JS numbers (`±Infinity * 180 / π = ±Infinity`,
`NaN * 180 / π = NaN`). -/
def toDegreesJ : JsNum → JsNum
  | .fin r => .fin (toDegrees r)
  | .posInf => .posInf
  | .negInf => .negInf
  | .nan => .nan

/-- `normalizeAngle(angle)`: the source runs
`while (angle < 0) angle += 360; while (angle >= 360) angle -= 360;`.
On the reals both loops terminate and their combined effect is the unique
representative of `angle` modulo 360 lying in `[0, 360)`, i.e.
`angle - 360 * ⌊angle / 360⌋`; `normalizeAngle_mem` and
`normalizeAngle_sub` below establish exactly that characterisation. -/
def normalizeAngle (angle : ℝ) : ℝ := angle - 360 * (⌊angle / 360⌋ : ℤ)

/-- `round(value, decimals)`: `Math.round(value * 10^decimals) / 10^decimals`. -/
def round (value : ℝ) (decimals : ℕ) : ℝ :=
  jsRound (value * 10 ^ decimals) / 10 ^ decimals

/-- `round` applied to a JS number (`Math.round` preserves `±Infinity` and `NaN`). -/
def roundJ : JsNum → ℕ → JsNum
  | .fin r, d => .fin (round r d)
  | x, _ => x

/-- `Math.atan2(y, x)` for finite real arguments (zeros are IEEE `+0`). -/
def atan2 (y x : ℝ) : ℝ :=
  if 0 < x then Real.arctan (y / x)
  else if x < 0 then
    (if 0 ≤ y then Real.arctan (y / x) + Real.pi else Real.arctan (y / x) - Real.pi)
  else
    (if 0 < y then Real.pi / 2 else if y < 0 then -(Real.pi / 2) else 0)

/-- `calculateAzimuth(obsLat, obsLon, satLon)` (src/js/ar.js lines 176-194). -/
def calculateAzimuth (obsLat obsLon satLon : ℝ) : ℝ :=
  let latRad := toRadians obsLat
  let lonDiff := toRadians (satLon - obsLon)
  let azimuthRad := atan2 (Real.tan lonDiff) (Real.sin latRad)
  let azimuth := toDegrees azimuthRad
  let azimuth2 := if obsLat < 0 then jsRem (azimuth + 360) 360 else 180 + azimuth
  normalizeAngle azimuth2

/-- `calculateElevation(obsLat, obsLon, satLon)` (src/js/ar.js lines 203-217).
The radicand `1 - cosGamma * cosGamma` is nonnegative for every real input
(`cosGamma` is a product of two cosines), so `Math.sqrt` never sees a
negative argument and is embedded as `Real.sqrt`; the division is the
JS division, which produces `+Infinity` when the radicand is zero. -/
def calculateElevation (obsLat obsLon satLon : ℝ) : JsNum :=
  let latRad := toRadians obsLat
  let lonDiffRad := toRadians (satLon - obsLon)
  let cosGamma := Real.cos latRad * Real.cos lonDiffRad
  toDegreesJ (jsAtan (jsDiv (cosGamma - 1 / (GEO_RADIUS / EARTH_RADIUS))
    (Real.sqrt (1 - cosGamma * cosGamma))))

/-- `calculateLNBTilt(obsLat, obsLon, satLon)` (src/js/ar.js lines 226-236). -/
def calculateLNBTilt (obsLat obsLon satLon : ℝ) : JsNum :=
  let latRad := toRadians obsLat
  let lonDiffRad := toRadians (satLon - obsLon)
  toDegreesJ (jsAtan (jsDiv (Real.sin lonDiffRad) (Real.tan latRad)))

/-- The signal-quality classification performed inline in `calculateAll`
(src/js/ar.js lines 254-258), as a function of the raw (unrounded)
elevation value.  The non-finite cases record the IEEE comparison
semantics of the `if (elevation > 30) ...` chain. -/
def signalQualityOf : JsNum → String
  | .fin e =>
      if 30 < e then "excellent"
      else if 20 < e then "good"
      else if 10 < e then "fair"
      else if 0 < e then "poor"
      else "none"
  | .posInf => "excellent"
  | .negInf => "none"
  | .nan => "none"

/-- The record returned by `calculateAll`. -/
structure PointingSolution where
  azimuth : ℝ
  elevation : JsNum
  lnbTilt : JsNum
  isVisible : Prop
  signalQuality : String

/-- `calculateAll(obsLat, obsLon, satLon)` (src/js/ar.js lines 245-267):
visibility and signal quality are computed from the raw elevation, and the
three angles are rounded to 1 decimal place in the returned record. -/
def calculateAll (obsLat obsLon satLon : ℝ) : PointingSolution :=
  let azimuth := calculateAzimuth obsLat obsLon satLon
  let elevation := calculateElevation obsLat obsLon satLon
  let lnbTilt := calculateLNBTilt obsLat obsLon satLon
  let isVisible := elevation.gtR 0
  let signalQuality := signalQualityOf elevation
  { azimuth := round azimuth 1
    elevation := roundJ elevation 1
    lnbTilt := roundJ lnbTilt 1
    isVisible := isVisible
    signalQuality := signalQuality }

/-- `calculateDistance(obsLat, obsLon, satLon)` (src/js/ar.js lines 276-290).
The radicand equals `(GEO_RADIUS - EARTH_RADIUS)² + 2·R_e·R_g·(1 - cosGamma) ≥ 0`,
so `Math.sqrt` is embedded as `Real.sqrt`. -/
def calculateDistance (obsLat obsLon satLon : ℝ) : ℝ :=
  let latRad := toRadians obsLat
  let lonDiffRad := toRadians (satLon - obsLon)
  let cosGamma := Real.cos latRad * Real.cos lonDiffRad
  let distance := Real.sqrt (EARTH_RADIUS * EARTH_RADIUS +
    GEO_RADIUS * GEO_RADIUS - 2 * EARTH_RADIUS * GEO_RADIUS * cosGamma)
  jsRound distance

/-- The local `cosGamma` value shared by `calculateElevation` and
`calculateDistance` (src/js/ar.js lines 208 and 280). -/
def cosGammaOf (obsLat obsLon satLon : ℝ) : ℝ :=
  Real.cos (toRadians obsLat) * Real.cos (toRadians (satLon - obsLon))

/-- The finite real value taken by `calculateElevation`
(`calculateElevation_eq` below): the `atan` quotient when the radicand is
nonzero, and the IEEE limiting values `±90` at `cosGamma = ±1`. -/
def elevValue (c : ℝ) : ℝ :=
  if c = 1 then 90
  else if c = -1 then -90
  else toDegrees (Real.arctan ((c - EARTH_RADIUS / GEO_RADIUS) / Real.sqrt (1 - c * c)))

end SatelliteCalculator

namespace SatelliteCalculator

lemma jsDiv_pos_zero {a : ℝ} (ha : 0 < a) : jsDiv a 0 = .posInf := by
  simp [jsDiv, ha]

lemma jsDiv_neg_zero {a : ℝ} (ha : a < 0) : jsDiv a 0 = .negInf := by
  simp [jsDiv, ha, ha.not_lt]

lemma jsDiv_zero_zero : jsDiv 0 0 = .nan := by
  simp [jsDiv]

lemma jsDiv_of_ne {a b : ℝ} (hb : b ≠ 0) : jsDiv a b = .fin (a / b) := by
  simp [jsDiv, hb]

lemma normalizeAngle_mem (a : ℝ) : 0 ≤ normalizeAngle a ∧ normalizeAngle a < 360 := by
  have h1 := Int.floor_le (a / 360)
  have h2 := Int.lt_floor_add_one (a / 360)
  unfold normalizeAngle
  constructor <;> [nlinarith; nlinarith]

lemma normalizeAngle_sub (a : ℝ) : ∃ m : ℤ, a - normalizeAngle a = 360 * m := by
  exact ⟨⌊a / 360⌋, by unfold normalizeAngle; ring⟩

lemma normalizeAngle_add_int (a : ℝ) (m : ℤ) :
    normalizeAngle (a + 360 * m) = normalizeAngle a := by
  unfold normalizeAngle
  have h : (a + 360 * m) / 360 = a / 360 + m := by ring
  rw [h, Int.floor_add_int]
  push_cast
  ring

lemma normalizeAngle_eq_self {a : ℝ} (h0 : 0 ≤ a) (h1 : a < 360) :
    normalizeAngle a = a := by
  unfold normalizeAngle
  have : ⌊a / 360⌋ = 0 := by
    rw [Int.floor_eq_zero_iff]
    constructor
    · positivity
    · rw [div_lt_one (by norm_num : (0:ℝ) < 360)]; exact h1
  rw [this]
  push_cast
  ring

lemma normalizeAngle_jsRem (a : ℝ) :
    normalizeAngle (jsRem (a + 360) 360) = normalizeAngle a := by
  have h : jsRem (a + 360) 360 = a + 360 * ((1 - jsTrunc ((a + 360) / 360) : ℤ) : ℝ) := by
    unfold jsRem
    push_cast
    ring
  rw [h, normalizeAngle_add_int]

lemma round_one_eq (v : ℝ) : round v 1 = ((⌊v * 10 + 1 / 2⌋ : ℤ) : ℝ) / 10 := by
  unfold round jsRound
  norm_num

lemma round_one_le (v : ℝ) : round v 1 ≤ v + 1 / 20 := by
  rw [round_one_eq]
  have h := Int.floor_le (v * 10 + 1 / 2)
  linarith

lemma lt_round_one (v : ℝ) : v - 1 / 20 < round v 1 := by
  rw [round_one_eq]
  have h := Int.lt_floor_add_one (v * 10 + 1 / 2)
  linarith

lemma toDegrees_lt_toDegrees {a b : ℝ} (h : a < b) : toDegrees a < toDegrees b := by
  unfold toDegrees
  have hπ := Real.pi_pos
  exact div_lt_div_of_pos_right (by nlinarith) hπ

lemma toDegrees_le_toDegrees {a b : ℝ} (h : a ≤ b) : toDegrees a ≤ toDegrees b := by
  rcases eq_or_lt_of_le h with rfl | h
  · exact le_refl _
  · exact (toDegrees_lt_toDegrees h).le

lemma toDegrees_zero : toDegrees 0 = 0 := by
  unfold toDegrees; ring

lemma toDegrees_pi_div_two : toDegrees (Real.pi / 2) = 90 := by
  unfold toDegrees
  field_simp
  ring

lemma toDegrees_neg_pi_div_two : toDegrees (-(Real.pi / 2)) = -90 := by
  unfold toDegrees
  field_simp
  ring

lemma toDegrees_pi : toDegrees Real.pi = 180 := by
  unfold toDegrees
  field_simp

lemma toDegrees_pos_iff {r : ℝ} : 0 < toDegrees r ↔ 0 < r := by
  unfold toDegrees
  rw [div_pos_iff]
  have hπ := Real.pi_pos
  constructor
  · rintro (⟨h, -⟩ | ⟨-, h⟩)
    · nlinarith
    · nlinarith
  · intro h
    left
    exact ⟨by nlinarith, hπ⟩

lemma toDegrees_eq_zero_iff {r : ℝ} : toDegrees r = 0 ↔ r = 0 := by
  unfold toDegrees
  have hπ := Real.pi_ne_zero
  constructor
  · intro h
    rcases div_eq_zero_iff.mp h with h' | h'
    · rcases mul_eq_zero.mp h' with h'' | h''
      · exact h''
      · norm_num at h''
    · exact absurd h' hπ
  · rintro rfl
    ring

lemma abs_cosGammaOf_le_one (lat lon slon : ℝ) : |cosGammaOf lat lon slon| ≤ 1 := by
  unfold cosGammaOf
  rw [abs_mul]
  exact mul_le_one₀ (Real.abs_cos_le_one _) (abs_nonneg _) (Real.abs_cos_le_one _)

lemma earth_div_geo_bounds :
    (0.1512692 : ℝ) < EARTH_RADIUS / GEO_RADIUS ∧
      EARTH_RADIUS / GEO_RADIUS < 0.1512693 := by
  norm_num [EARTH_RADIUS, GEO_RADIUS, GEO_ALTITUDE]

lemma calculateElevation_eq (lat lon slon : ℝ) :
    calculateElevation lat lon slon = .fin (elevValue (cosGammaOf lat lon slon)) := by
  have habs : |cosGammaOf lat lon slon| ≤ 1 := abs_cosGammaOf_le_one lat lon slon
  have h1 : -1 ≤ cosGammaOf lat lon slon := (abs_le.mp habs).1
  have h2 : cosGammaOf lat lon slon ≤ 1 := (abs_le.mp habs).2
  have hk := earth_div_geo_bounds
  unfold calculateElevation
  show toDegreesJ (jsAtan (jsDiv (cosGammaOf lat lon slon - 1 / (GEO_RADIUS / EARTH_RADIUS))
      (Real.sqrt (1 - cosGammaOf lat lon slon * cosGammaOf lat lon slon)))) = _
  have hratio : 1 / (GEO_RADIUS / EARTH_RADIUS) = EARTH_RADIUS / GEO_RADIUS := one_div_div _ _
  rw [hratio]
  set c := cosGammaOf lat lon slon with hc
  by_cases hone : c = 1
  · rw [hone]
    have hs : Real.sqrt (1 - 1 * 1) = 0 := by norm_num
    rw [hs, jsDiv_pos_zero (by linarith [hk.1, hk.2])]
    unfold elevValue
    rw [if_pos rfl]
    simp [jsAtan, toDegreesJ, toDegrees_pi_div_two]
  · by_cases hnegone : c = -1
    · rw [hnegone]
      have hs : Real.sqrt (1 - (-1 : ℝ) * (-1)) = 0 := by norm_num
      rw [hs, jsDiv_neg_zero (by linarith [hk.1, hk.2])]
      unfold elevValue
      rw [if_neg (by norm_num), if_pos rfl]
      simp [jsAtan, toDegreesJ, toDegrees_neg_pi_div_two]
    · have hlt1 : c < 1 := lt_of_le_of_ne h2 hone
      have hgt1 : -1 < c := lt_of_le_of_ne' h1 hnegone
      have hrad : 0 < 1 - c * c := by nlinarith
      have hs : Real.sqrt (1 - c * c) ≠ 0 := by
        exact (Real.sqrt_pos.mpr hrad).ne'
      rw [jsDiv_of_ne hs]
      unfold elevValue
      rw [if_neg hone, if_neg hnegone]
      simp [jsAtan, toDegreesJ]

lemma arctan_nonpos_of_nonpos {z : ℝ} (h : z ≤ 0) : Real.arctan z ≤ 0 := by
  have h2 : Real.arctan z ≤ Real.arctan 0 := Real.arctan_strictMono.monotone h
  simpa [Real.arctan_zero] using h2

lemma arctan_neg_of_neg {z : ℝ} (h : z < 0) : Real.arctan z < 0 := by
  have h2 : Real.arctan z < Real.arctan 0 := Real.arctan_strictMono h
  simpa [Real.arctan_zero] using h2

lemma arctan_pos_of_pos {z : ℝ} (h : 0 < z) : 0 < Real.arctan z := by
  have h2 : Real.arctan 0 < Real.arctan z := Real.arctan_strictMono h
  simpa [Real.arctan_zero] using h2

lemma atan2_of_pos {x : ℝ} (hx : 0 < x) (y : ℝ) : atan2 y x = Real.arctan (y / x) := by
  simp [atan2, hx]

lemma atan2_bounds_of_pos {x : ℝ} (hx : 0 < x) (y : ℝ) :
    -(Real.pi / 2) < atan2 y x ∧ atan2 y x < Real.pi / 2 := by
  rw [atan2_of_pos hx]
  exact ⟨Real.neg_pi_div_two_lt_arctan _, Real.arctan_lt_pi_div_two _⟩

lemma atan2_bounds_of_nonneg {x : ℝ} (hx : 0 ≤ x) (y : ℝ) :
    -(Real.pi / 2) ≤ atan2 y x ∧ atan2 y x ≤ Real.pi / 2 := by
  rcases eq_or_lt_of_le hx with h0 | hpos
  · have hπ := Real.pi_pos
    unfold atan2
    rw [← h0]
    split_ifs <;> constructor <;> linarith
  · have h := atan2_bounds_of_pos hpos y
    exact ⟨h.1.le, h.2.le⟩

lemma atan2_bounds_of_neg {x : ℝ} (hx : x < 0) (y : ℝ) :
    (Real.pi / 2 < atan2 y x ∧ atan2 y x ≤ Real.pi) ∨
    (-Real.pi < atan2 y x ∧ atan2 y x < -(Real.pi / 2)) := by
  unfold atan2
  rw [if_neg (by linarith : ¬ 0 < x), if_pos hx]
  by_cases hy : 0 ≤ y
  · left
    rw [if_pos hy]
    have hq : y / x ≤ 0 := div_nonpos_of_nonneg_of_nonpos hy hx.le
    have ha1 := arctan_nonpos_of_nonpos hq
    have ha2 := Real.neg_pi_div_two_lt_arctan (y / x)
    constructor <;> linarith
  · right
    rw [if_neg hy]
    push_neg at hy
    have hq : 0 < y / x := div_pos_of_neg_of_neg hy hx
    have ha1 := arctan_pos_of_pos hq
    have ha2 := Real.arctan_lt_pi_div_two (y / x)
    constructor <;> linarith

lemma toRadians_zero : toRadians 0 = 0 := by
  unfold toRadians; ring

lemma normalizeAngle_of_neg {a : ℝ} (h0 : -360 ≤ a) (h1 : a < 0) :
    normalizeAngle a = a + 360 := by
  have h2 : normalizeAngle (a + 360 * ((1 : ℤ) : ℝ)) = normalizeAngle a :=
    normalizeAngle_add_int a 1
  have h3 : normalizeAngle (a + 360 * ((1 : ℤ) : ℝ)) = a + 360 := by
    rw [show a + 360 * ((1 : ℤ) : ℝ) = a + 360 by push_cast; ring]
    exact normalizeAngle_eq_self (by linarith) (by linarith)
  rw [← h2, h3]

lemma toDegrees_neg_pi : toDegrees (-Real.pi) = -180 := by
  unfold toDegrees
  field_simp
  ring

/-- `calculateAzimuth` with its `let`-bindings expanded. -/
lemma calculateAzimuth_def (lat lon slon : ℝ) :
    calculateAzimuth lat lon slon =
      normalizeAngle (if lat < 0
        then jsRem (toDegrees (atan2 (Real.tan (toRadians (slon - lon)))
          (Real.sin (toRadians lat))) + 360) 360
        else 180 + toDegrees (atan2 (Real.tan (toRadians (slon - lon)))
          (Real.sin (toRadians lat)))) := rfl

/-- `calculateLNBTilt` with its `let`-bindings expanded. -/
lemma calculateLNBTilt_def (lat lon slon : ℝ) :
    calculateLNBTilt lat lon slon =
      toDegreesJ (jsAtan (jsDiv (Real.sin (toRadians (slon - lon)))
        (Real.tan (toRadians lat)))) := rfl

/-- `calculateDistance` with its `let`-bindings expanded. -/
lemma calculateDistance_def (lat lon slon : ℝ) :
    calculateDistance lat lon slon =
      jsRound (Real.sqrt (EARTH_RADIUS * EARTH_RADIUS + GEO_RADIUS * GEO_RADIUS -
        2 * EARTH_RADIUS * GEO_RADIUS * cosGammaOf lat lon slon)) := rfl

/-- `calculateAll` with its `let`-bindings expanded. -/
lemma calculateAll_def (lat lon slon : ℝ) :
    calculateAll lat lon slon =
      { azimuth := round (calculateAzimuth lat lon slon) 1
        elevation := roundJ (calculateElevation lat lon slon) 1
        lnbTilt := roundJ (calculateLNBTilt lat lon slon) 1
        isVisible := (calculateElevation lat lon slon).gtR 0
        signalQuality := signalQualityOf (calculateElevation lat lon slon) } := rfl

/-- Range analysis for `calculateAzimuth` on valid latitudes: the raw
(unrounded) azimuth always lies in `[90, 270]`. -/
lemma calculateAzimuth_mem {lat : ℝ} (h1 : -90 ≤ lat) (h2 : lat ≤ 90) (lon slon : ℝ) :
    90 ≤ calculateAzimuth lat lon slon ∧ calculateAzimuth lat lon slon ≤ 270 := by
  have hπ := Real.pi_pos
  rw [calculateAzimuth_def]
  set y := Real.tan (toRadians (slon - lon)) with hy
  set x := Real.sin (toRadians lat) with hx
  set raw := toDegrees (atan2 y x) with hraw
  by_cases hlat : lat < 0
  · -- southern hemisphere: x = sin(latRad) < 0
    rw [if_pos hlat, normalizeAngle_jsRem]
    have hr1 : toRadians lat < 0 := by
      unfold toRadians
      have : lat * Real.pi < 0 := mul_neg_of_neg_of_pos hlat hπ
      linarith
    have hr2 : -Real.pi < toRadians lat := by
      unfold toRadians
      nlinarith
    have hxneg : x < 0 := Real.sin_neg_of_neg_of_neg_pi_lt hr1 hr2
    rcases atan2_bounds_of_neg hxneg y with ⟨hb1, hb2⟩ | ⟨hb1, hb2⟩
    · -- raw in (90, 180]
      have hd1 : 90 < raw := by
        rw [hraw, ← toDegrees_pi_div_two]
        exact toDegrees_lt_toDegrees hb1
      have hd2 : raw ≤ 180 := by
        rw [hraw, ← toDegrees_pi]
        exact toDegrees_le_toDegrees hb2
      rw [normalizeAngle_eq_self (by linarith) (by linarith)]
      constructor <;> linarith
    · -- raw in (-180, -90)
      have hd1 : -180 < raw := by
        rw [hraw, ← toDegrees_neg_pi]
        exact toDegrees_lt_toDegrees hb1
      have hd2 : raw < -90 := by
        rw [hraw, ← toDegrees_neg_pi_div_two]
        exact toDegrees_lt_toDegrees hb2
      rw [normalizeAngle_of_neg (by linarith) (by linarith)]
      constructor <;> linarith
  · -- northern hemisphere (including equator): x = sin(latRad) ≥ 0
    rw [if_neg hlat]
    push_neg at hlat
    have hr1 : 0 ≤ toRadians lat := by
      unfold toRadians
      positivity
    have hr2 : toRadians lat ≤ Real.pi := by
      unfold toRadians
      nlinarith
    have hxpos : 0 ≤ x := Real.sin_nonneg_of_nonneg_of_le_pi hr1 hr2
    obtain ⟨hb1, hb2⟩ := atan2_bounds_of_nonneg hxpos y
    have hd1 : -90 ≤ raw := by
      rw [hraw, ← toDegrees_neg_pi_div_two]
      exact toDegrees_le_toDegrees hb1
    have hd2 : raw ≤ 90 := by
      rw [hraw, ← toDegrees_pi_div_two]
      exact toDegrees_le_toDegrees hb2
    rw [normalizeAngle_eq_self (by linarith) (by linarith)]
    constructor <;> linarith

lemma cosGammaOf_origin : cosGammaOf 0 0 0 = 1 := by
  unfold cosGammaOf
  norm_num [toRadians_zero]

lemma calculateAzimuth_origin : calculateAzimuth 0 0 0 = 180 := by
  rw [calculateAzimuth_def]
  norm_num [toRadians_zero, toDegrees_zero, atan2, normalizeAngle]

lemma calculateElevation_origin : calculateElevation 0 0 0 = .fin 90 := by
  rw [calculateElevation_eq, cosGammaOf_origin]
  unfold elevValue
  rw [if_pos rfl]

lemma calculateLNBTilt_origin : calculateLNBTilt 0 0 0 = .nan := by
  rw [calculateLNBTilt_def]
  norm_num [toRadians_zero, jsDiv_zero_zero]
  simp [jsAtan, toDegreesJ]

lemma floor_add_half_eq (n : ℤ) {x : ℝ} (h1 : (n : ℝ) ≤ x + 1 / 2) (h2 : x + 1 / 2 < n + 1) :
    ⌊x + 1 / 2⌋ = n :=
  Int.floor_eq_iff.mpr ⟨h1, h2⟩

lemma calculateDistance_origin : calculateDistance 0 0 0 = 35786 := by
  rw [calculateDistance_def, cosGammaOf_origin]
  have h : EARTH_RADIUS * EARTH_RADIUS + GEO_RADIUS * GEO_RADIUS -
      2 * EARTH_RADIUS * GEO_RADIUS * 1 = (35786 : ℝ) ^ 2 := by
    unfold GEO_RADIUS EARTH_RADIUS GEO_ALTITUDE
    norm_num
  rw [h, Real.sqrt_sq (by norm_num)]
  unfold jsRound
  rw [floor_add_half_eq 35786 (by norm_num) (by norm_num)]
  norm_num

/-- Rank of a signal-quality string, for stating monotonicity. -/
def qualityRank (q : String) : ℕ :=
  if q = "excellent" then 4
  else if q = "good" then 3
  else if q = "fair" then 2
  else if q = "poor" then 1
  else 0

lemma qualityRank_signalQualityOf (e : ℝ) :
    qualityRank (signalQualityOf (.fin e)) =
      if 30 < e then 4 else if 20 < e then 3 else if 10 < e then 2
      else if 0 < e then 1 else 0 := by
  show qualityRank (if 30 < e then "excellent" else if 20 < e then "good"
    else if 10 < e then "fair" else if 0 < e then "poor" else "none") = _
  split_ifs <;> decide

lemma qualityRank_mono {e1 e2 : ℝ} (h : e1 ≤ e2) :
    qualityRank (signalQualityOf (.fin e1)) ≤ qualityRank (signalQualityOf (.fin e2)) := by
  rw [qualityRank_signalQualityOf, qualityRank_signalQualityOf]
  split_ifs <;> linarith

lemma signalQualityOf_fin (e : ℝ) :
    signalQualityOf (.fin e) =
      if 30 < e then "excellent" else if 20 < e then "good"
      else if 10 < e then "fair" else if 0 < e then "poor" else "none" := rfl

lemma sqrt_le_of_sq_le {a b : ℝ} (hb : 0 ≤ b) (h : a ≤ b ^ 2) : Real.sqrt a ≤ b := by
  rw [show b = Real.sqrt (b ^ 2) by rw [Real.sqrt_sq hb]]
  exact Real.sqrt_le_sqrt h

lemma le_sqrt_of_sq_le {a b : ℝ} (hb : 0 ≤ b) (h : b ^ 2 ≤ a) : b ≤ Real.sqrt a := by
  rw [show b = Real.sqrt (b ^ 2) by rw [Real.sqrt_sq hb]]
  exact Real.sqrt_le_sqrt h

lemma elevValue_lt_elevValue {c1 c2 : ℝ} (hk : EARTH_RADIUS / GEO_RADIUS ≤ c1)
    (h12 : c1 < c2) (h2 : c2 ≤ 1) : elevValue c1 < elevValue c2 := by
  have hkb := earth_div_geo_bounds
  have hc1lt1 : c1 < 1 := lt_of_lt_of_le h12 h2
  have hc1pos : 0 < c1 := lt_of_lt_of_le (by linarith) hk
  have hrad1 : 0 < 1 - c1 * c1 := by nlinarith
  have hs1pos : 0 < Real.sqrt (1 - c1 * c1) := Real.sqrt_pos.mpr hrad1
  unfold elevValue
  rw [if_neg hc1lt1.ne, if_neg (by linarith : c1 ≠ -1)]
  rcases eq_or_lt_of_le h2 with hc2one | hc2lt1
  · rw [if_pos hc2one]
    calc toDegrees (Real.arctan ((c1 - EARTH_RADIUS / GEO_RADIUS) / Real.sqrt (1 - c1 * c1)))
        < toDegrees (Real.pi / 2) :=
          toDegrees_lt_toDegrees (Real.arctan_lt_pi_div_two _)
      _ = 90 := toDegrees_pi_div_two
  · rw [if_neg hc2lt1.ne, if_neg (by linarith : c2 ≠ -1)]
    have hrad2 : 0 < 1 - c2 * c2 := by nlinarith
    have hs2pos : 0 < Real.sqrt (1 - c2 * c2) := Real.sqrt_pos.mpr hrad2
    have hs21 : Real.sqrt (1 - c2 * c2) < Real.sqrt (1 - c1 * c1) :=
      Real.sqrt_lt_sqrt hrad2.le (by nlinarith)
    have hr12 : (c1 - EARTH_RADIUS / GEO_RADIUS) / Real.sqrt (1 - c1 * c1) <
        (c2 - EARTH_RADIUS / GEO_RADIUS) / Real.sqrt (1 - c2 * c2) := by
      have hnum1 : 0 ≤ c1 - EARTH_RADIUS / GEO_RADIUS := by linarith
      have step1 : (c1 - EARTH_RADIUS / GEO_RADIUS) / Real.sqrt (1 - c1 * c1) ≤
          (c1 - EARTH_RADIUS / GEO_RADIUS) / Real.sqrt (1 - c2 * c2) := by
        rw [div_le_div_iff₀ hs1pos hs2pos]
        exact mul_le_mul_of_nonneg_left hs21.le hnum1
      have step2 : (c1 - EARTH_RADIUS / GEO_RADIUS) / Real.sqrt (1 - c2 * c2) <
          (c2 - EARTH_RADIUS / GEO_RADIUS) / Real.sqrt (1 - c2 * c2) := by
        apply div_lt_div_of_pos_right _ hs2pos
        linarith
      exact lt_of_le_of_lt step1 step2
    exact toDegrees_lt_toDegrees (Real.arctan_strictMono hr12)

lemma elevValue_eq_zero_iff {c : ℝ} (h1 : -1 ≤ c) (h2 : c ≤ 1) :
    elevValue c = 0 ↔ c = EARTH_RADIUS / GEO_RADIUS := by
  have hkb := earth_div_geo_bounds
  unfold elevValue
  by_cases hone : c = 1
  · rw [if_pos hone]
    constructor
    · intro h; norm_num at h
    · intro h; rw [hone] at h; linarith
  · rw [if_neg hone]
    by_cases hneg : c = -1
    · rw [if_pos hneg]
      constructor
      · intro h; norm_num at h
      · intro h; rw [hneg] at h; linarith
    · rw [if_neg hneg]
      have hlt1 : c < 1 := lt_of_le_of_ne h2 hone
      have hgt1 : -1 < c := lt_of_le_of_ne' h1 hneg
      have hrad : 0 < 1 - c * c := by nlinarith
      have hs : Real.sqrt (1 - c * c) ≠ 0 := (Real.sqrt_pos.mpr hrad).ne'
      rw [toDegrees_eq_zero_iff, Real.arctan_eq_zero_iff, div_eq_zero_iff]
      constructor
      · rintro (h | h)
        · linarith [sub_eq_zero.mp h]
        · exact absurd h hs
      · intro h
        left
        rw [h]
        ring

/-!  Explicit polynomial enclosures for cosine and sine on `[0, 1]`, from
Mathlib's quartic remainder bounds; used to pin down the trigonometric
values at the concrete test latitudes/longitude differences. -/

lemma cos_poly_bounds {x lo hi : ℝ} (hlo : lo ≤ x) (hhi : x ≤ hi) (h0 : 0 ≤ lo)
    (h1 : hi ≤ 1) :
    1 - hi ^ 2 / 2 - hi ^ 4 * (5 / 96) ≤ Real.cos x ∧
    Real.cos x ≤ 1 - lo ^ 2 / 2 + hi ^ 4 * (5 / 96) := by
  have hx0 : 0 ≤ x := le_trans h0 hlo
  have hxabs : |x| ≤ 1 := abs_le.mpr ⟨by linarith, by linarith⟩
  have hb := Real.cos_bound hxabs
  rw [abs_of_nonneg hx0, abs_le] at hb
  obtain ⟨hb1, hb2⟩ := hb
  have hx2hi : x ^ 2 ≤ hi ^ 2 := pow_le_pow_left₀ hx0 hhi 2
  have hx2lo : lo ^ 2 ≤ x ^ 2 := pow_le_pow_left₀ h0 hlo 2
  have hx4 : x ^ 4 ≤ hi ^ 4 := pow_le_pow_left₀ hx0 hhi 4
  have hx4nn : (0 : ℝ) ≤ x ^ 4 := by positivity
  constructor <;> linarith

lemma sin_poly_bounds {x lo hi : ℝ} (hlo : lo ≤ x) (hhi : x ≤ hi) (h0 : 0 ≤ lo)
    (h1 : hi ≤ 1) :
    lo - lo ^ 3 / 6 - hi ^ 4 * (5 / 96) ≤ Real.sin x ∧
    Real.sin x ≤ hi - hi ^ 3 / 6 + hi ^ 4 * (5 / 96) := by
  have hx0 : 0 ≤ x := le_trans h0 hlo
  have hxabs : |x| ≤ 1 := abs_le.mpr ⟨by linarith, by linarith⟩
  have hb := Real.sin_bound hxabs
  rw [abs_of_nonneg hx0, abs_le] at hb
  obtain ⟨hb1, hb2⟩ := hb
  have hx4 : x ^ 4 ≤ hi ^ 4 := pow_le_pow_left₀ hx0 hhi 4
  have hx4nn : (0 : ℝ) ≤ x ^ 4 := by positivity
  have hc1 : (0 : ℝ) ≤ 6 - (x ^ 2 + x * lo + lo ^ 2) := by nlinarith
  have hg1 : lo - lo ^ 3 / 6 ≤ x - x ^ 3 / 6 := by
    nlinarith [mul_nonneg (sub_nonneg.mpr hlo) hc1]
  have hc2 : (0 : ℝ) ≤ 6 - (hi ^ 2 + hi * x + x ^ 2) := by nlinarith
  have hg2 : x - x ^ 3 / 6 ≤ hi - hi ^ 3 / 6 := by
    nlinarith [mul_nonneg (sub_nonneg.mpr hhi) hc2]
  constructor <;> linarith

lemma toRadians_neg (d : ℝ) : toRadians (-d) = -toRadians d := by
  unfold toRadians
  ring

lemma toDegrees_pi_div_six : toDegrees (Real.pi / 6) = 30 := by
  unfold toDegrees
  field_simp
  ring

lemma toDegrees_neg_pi_div_four : toDegrees (-(Real.pi / 4)) = -45 := by
  unfold toDegrees
  field_simp
  ring

lemma toRadians25_bounds : (0.4363322 : ℝ) ≤ toRadians 25 ∧ toRadians 25 ≤ 0.4363324 := by
  have h1 := Real.pi_gt_d6
  have h2 := Real.pi_lt_d6
  unfold toRadians
  constructor <;> linarith

lemma cos25_bounds :
    (0.90291 : ℝ) ≤ Real.cos (toRadians 25) ∧ Real.cos (toRadians 25) ≤ 0.90670 := by
  obtain ⟨hlo, hhi⟩ := toRadians25_bounds
  have h := cos_poly_bounds hlo hhi (by norm_num) (by norm_num)
  constructor <;> nlinarith [h.1, h.2]

lemma sin25_bounds :
    (0.42059 : ℝ) ≤ Real.sin (toRadians 25) ∧ Real.sin (toRadians 25) ≤ 0.42438 := by
  obtain ⟨hlo, hhi⟩ := toRadians25_bounds
  have h := sin_poly_bounds hlo hhi (by norm_num) (by norm_num)
  constructor <;> nlinarith [h.1, h.2]

lemma toRadians42_bounds : (0.7330381 : ℝ) ≤ toRadians 42 ∧ toRadians 42 ≤ 0.7330384 := by
  have h1 := Real.pi_gt_d6
  have h2 := Real.pi_lt_d6
  unfold toRadians
  constructor <;> linarith

lemma cos42_bounds :
    (0.71628 : ℝ) ≤ Real.cos (toRadians 42) ∧ Real.cos (toRadians 42) ≤ 0.74637 := by
  obtain ⟨hlo, hhi⟩ := toRadians42_bounds
  have h := cos_poly_bounds hlo hhi (by norm_num) (by norm_num)
  constructor <;> nlinarith [h.1, h.2]

lemma sin42_bounds :
    (0.65235 : ℝ) ≤ Real.sin (toRadians 42) ∧ Real.sin (toRadians 42) ≤ 0.68243 := by
  obtain ⟨hlo, hhi⟩ := toRadians42_bounds
  have h := sin_poly_bounds hlo hhi (by norm_num) (by norm_num)
  constructor <;> nlinarith [h.1, h.2]

lemma tan25_bounds :
    (0.46386 : ℝ) ≤ Real.tan (toRadians 25) ∧ Real.tan (toRadians 25) ≤ 0.47002 := by
  obtain ⟨hs1, hs2⟩ := sin25_bounds
  obtain ⟨hc1, hc2⟩ := cos25_bounds
  have hcpos : (0 : ℝ) < Real.cos (toRadians 25) := by linarith
  rw [Real.tan_eq_sin_div_cos]
  constructor
  · rw [le_div_iff₀ hcpos]
    nlinarith
  · rw [div_le_iff₀ hcpos]
    nlinarith

lemma toRadians873_bounds :
    (0.1523672 : ℝ) ≤ toRadians 8.73 ∧ toRadians 8.73 ≤ 0.1523673 := by
  have h1 := Real.pi_gt_d6
  have h2 := Real.pi_lt_d6
  unfold toRadians
  constructor <;> linarith

lemma sin873_bounds :
    (0.1517495 : ℝ) ≤ Real.sin (toRadians 8.73) ∧
    Real.sin (toRadians 8.73) ≤ 0.1518059 := by
  obtain ⟨hlo, hhi⟩ := toRadians873_bounds
  have h := sin_poly_bounds hlo hhi (by norm_num) (by norm_num)
  constructor <;> nlinarith [h.1, h.2]

lemma cos_toRadians_8127 : Real.cos (toRadians 81.27) = Real.sin (toRadians 8.73) := by
  rw [← Real.sin_pi_div_two_sub]
  congr 1
  unfold toRadians
  ring

end SatelliteCalculator

open SatelliteCalculator

/-- Claim C3: for every input, `calculateAzimuth` computes
`raw = atan2(tan(Δλ), sin(φ))` in degrees with `Δλ = satLon − obsLon` and
`φ = obsLat`; if `obsLat < 0` the result is `raw` wrapped into `[0,360)`,
otherwise it is `180 + raw` wrapped into `[0,360)`; the returned value
always lies in `[0,360)` (and `normalizeAngle` is exactly the wrap into
`[0,360)`: it lands in that interval and differs from its argument by an
integer multiple of 360). -/
theorem C3_azimuth_formula (lat lon slon : ℝ) :
    calculateAzimuth lat lon slon =
      (if lat < 0
        then normalizeAngle (toDegrees (atan2 (Real.tan (toRadians (slon - lon)))
          (Real.sin (toRadians lat))))
        else normalizeAngle (180 + toDegrees (atan2 (Real.tan (toRadians (slon - lon)))
          (Real.sin (toRadians lat))))) ∧
    (0 ≤ calculateAzimuth lat lon slon ∧ calculateAzimuth lat lon slon < 360) ∧
    (∀ a : ℝ, (0 ≤ normalizeAngle a ∧ normalizeAngle a < 360) ∧
      ∃ m : ℤ, a - normalizeAngle a = 360 * m) := by
  refine ⟨?_, ?_, fun a => ⟨normalizeAngle_mem a, normalizeAngle_sub a⟩⟩
  · rw [calculateAzimuth_def]
    by_cases h : lat < 0
    · rw [if_pos h, if_pos h, normalizeAngle_jsRem]
    · rw [if_neg h, if_neg h]
  · rw [calculateAzimuth_def]
    exact normalizeAngle_mem _

/-- Claim C9: the whole engine is invariant under a common translation of
both longitudes — every formula depends on the longitudes only through
`satLon − obsLon`. -/
theorem C9_longitude_translation (lat lon slon c : ℝ) :
    calculateAzimuth lat (lon + c) (slon + c) = calculateAzimuth lat lon slon ∧
    calculateElevation lat (lon + c) (slon + c) = calculateElevation lat lon slon ∧
    calculateLNBTilt lat (lon + c) (slon + c) = calculateLNBTilt lat lon slon ∧
    calculateDistance lat (lon + c) (slon + c) = calculateDistance lat lon slon ∧
    calculateAll lat (lon + c) (slon + c) = calculateAll lat lon slon := by
  have h : slon + c - (lon + c) = slon - lon := by ring
  have hG : cosGammaOf lat (lon + c) (slon + c) = cosGammaOf lat lon slon := by
    unfold cosGammaOf
    rw [h]
  have hA : calculateAzimuth lat (lon + c) (slon + c) = calculateAzimuth lat lon slon := by
    rw [calculateAzimuth_def, calculateAzimuth_def, h]
  have hE : calculateElevation lat (lon + c) (slon + c) = calculateElevation lat lon slon := by
    rw [calculateElevation_eq, calculateElevation_eq, hG]
  have hT : calculateLNBTilt lat (lon + c) (slon + c) = calculateLNBTilt lat lon slon := by
    rw [calculateLNBTilt_def, calculateLNBTilt_def, h]
  have hD : calculateDistance lat (lon + c) (slon + c) = calculateDistance lat lon slon := by
    rw [calculateDistance_def, calculateDistance_def, hG]
  refine ⟨hA, hE, hT, hD, ?_⟩
  rw [calculateAll_def, calculateAll_def, hA, hE, hT]

/-- Claim C10: for every input, `calculateDistance` returns an integer
number of kilometers between 35786 (slant range at the sub-satellite
point) and 48542 (antipodal maximum, `≈ 48542.274` rounded down by the
half-up rounding). -/
theorem C10_distance_range (lat lon slon : ℝ) :
    ∃ n : ℤ, calculateDistance lat lon slon = (n : ℝ) ∧ 35786 ≤ n ∧ n ≤ 48542 := by
  rw [calculateDistance_def]
  have habs := abs_cosGammaOf_le_one lat lon slon
  have h1 : -1 ≤ cosGammaOf lat lon slon := (abs_le.mp habs).1
  have h2 : cosGammaOf lat lon slon ≤ 1 := (abs_le.mp habs).2
  set c := cosGammaOf lat lon slon with hc
  have hlo : (35786 : ℝ) ^ 2 ≤ EARTH_RADIUS * EARTH_RADIUS + GEO_RADIUS * GEO_RADIUS -
      2 * EARTH_RADIUS * GEO_RADIUS * c := by
    unfold GEO_RADIUS EARTH_RADIUS GEO_ALTITUDE
    nlinarith
  have hhi : EARTH_RADIUS * EARTH_RADIUS + GEO_RADIUS * GEO_RADIUS -
      2 * EARTH_RADIUS * GEO_RADIUS * c ≤ (48542.274 : ℝ) ^ 2 := by
    unfold GEO_RADIUS EARTH_RADIUS GEO_ALTITUDE
    nlinarith
  have hd1 : (35786 : ℝ) ≤ Real.sqrt (EARTH_RADIUS * EARTH_RADIUS +
      GEO_RADIUS * GEO_RADIUS - 2 * EARTH_RADIUS * GEO_RADIUS * c) :=
    le_sqrt_of_sq_le (by norm_num) hlo
  have hd2 : Real.sqrt (EARTH_RADIUS * EARTH_RADIUS + GEO_RADIUS * GEO_RADIUS -
      2 * EARTH_RADIUS * GEO_RADIUS * c) ≤ 48542.274 :=
    sqrt_le_of_sq_le (by norm_num) hhi
  unfold jsRound
  refine ⟨⌊Real.sqrt (EARTH_RADIUS * EARTH_RADIUS + GEO_RADIUS * GEO_RADIUS -
    2 * EARTH_RADIUS * GEO_RADIUS * c) + 1 / 2⌋, rfl, ?_, ?_⟩
  · rw [Int.le_floor]
    push_cast
    linarith
  · have hlt : ⌊Real.sqrt (EARTH_RADIUS * EARTH_RADIUS + GEO_RADIUS * GEO_RADIUS -
        2 * EARTH_RADIUS * GEO_RADIUS * c) + 1 / 2⌋ < 48543 := by
      rw [Int.floor_lt]
      push_cast
      linarith
    omega

/-- Claim C2 (code bug): the numeric degeneracy at the equator is NOT
guarded: at `obsLat = 0, obsLon = 0, satLon = 0` the tilt computation is
`atan(sin 0 / tan 0) = atan(0/0) = atan(NaN) = NaN`, and `calculateAll`
stores this `NaN` in the returned `lnbTilt` field. -/
theorem C2_tilt_nan_at_origin : (calculateAll 0 0 0).lnbTilt = JsNum.nan := by
  rw [calculateAll_def, calculateLNBTilt_origin]
  rfl

/-- Claim C5 (code bug): at the sub-satellite input `(0, 0, 0)` the engine
yields elevation exactly 90 and distance exactly 35786 km, and the azimuth
field is 180 (not NaN) — but the `lnbTilt` field IS `NaN`, contradicting
the claim that neither azimuth nor tilt is NaN. -/
theorem C5_subsatellite_point :
    (calculateAll 0 0 0).elevation = JsNum.fin 90 ∧
    calculateDistance 0 0 0 = 35786 ∧
    (calculateAll 0 0 0).azimuth = 180 ∧
    (calculateAll 0 0 0).lnbTilt = JsNum.nan := by
  refine ⟨?_, calculateDistance_origin, ?_, ?_⟩
  · rw [calculateAll_def, calculateElevation_origin]
    show JsNum.fin (round 90 1) = JsNum.fin 90
    rw [round_one_eq]
    rw [show (90 : ℝ) * 10 + 1 / 2 = (900 : ℝ) + 1 / 2 by norm_num]
    rw [floor_add_half_eq 900 (by norm_num) (by norm_num)]
    norm_num
  · rw [calculateAll_def, calculateAzimuth_origin]
    show round 180 1 = 180
    rw [round_one_eq]
    rw [show (180 : ℝ) * 10 + 1 / 2 = (1800 : ℝ) + 1 / 2 by norm_num]
    rw [floor_add_half_eq 1800 (by norm_num) (by norm_num)]
    norm_num
  · rw [calculateAll_def, calculateLNBTilt_origin]
    rfl

/-- Claim C7: for fixed `satLon`, the elevation computed by
`calculateElevation` is strictly increasing in
`cosGamma = cos(φ)·cos(Δλ)` on the visible side
(`cosGamma ≥ R_e/R_g`), and it equals exactly 0 precisely at the
geometric horizon `cosGamma = R_e/R_g`. -/
theorem C7_elevation_monotone (lat1 lon1 lat2 lon2 lat3 lon3 slon slon3 : ℝ) :
    (EARTH_RADIUS / GEO_RADIUS ≤ cosGammaOf lat1 lon1 slon →
      cosGammaOf lat1 lon1 slon < cosGammaOf lat2 lon2 slon →
      (calculateElevation lat1 lon1 slon).ltJ (calculateElevation lat2 lon2 slon)) ∧
    ((calculateElevation lat3 lon3 slon3 = JsNum.fin 0) ↔
      cosGammaOf lat3 lon3 slon3 = EARTH_RADIUS / GEO_RADIUS) := by
  constructor
  · intro hk h12
    rw [calculateElevation_eq, calculateElevation_eq]
    have h2 : cosGammaOf lat2 lon2 slon ≤ 1 :=
      (abs_le.mp (abs_cosGammaOf_le_one lat2 lon2 slon)).2
    exact elevValue_lt_elevValue hk h12 h2
  · rw [calculateElevation_eq]
    have habs := abs_cosGammaOf_le_one lat3 lon3 slon3
    have h1 : -1 ≤ cosGammaOf lat3 lon3 slon3 := (abs_le.mp habs).1
    have h2 : cosGammaOf lat3 lon3 slon3 ≤ 1 := (abs_le.mp habs).2
    constructor
    · intro h
      have : elevValue (cosGammaOf lat3 lon3 slon3) = 0 := by
        injection h
      exact (elevValue_eq_zero_iff h1 h2).mp this
    · intro h
      rw [(elevValue_eq_zero_iff h1 h2).mpr h]

/-- Claim C6: the signal-quality classification used by `calculateAll` is a
step function of the raw elevation with strict lower bounds at the fixed
thresholds 30/20/10/0; in particular elevation exactly 30 classifies as
"good" and elevation exactly 0 classifies as "none" and is not visible. -/
theorem C6_signal_quality (lat lon slon e : ℝ) :
    (signalQualityOf (.fin e) = "excellent" ↔ 30 < e) ∧
    (signalQualityOf (.fin e) = "good" ↔ 20 < e ∧ e ≤ 30) ∧
    (signalQualityOf (.fin e) = "fair" ↔ 10 < e ∧ e ≤ 20) ∧
    (signalQualityOf (.fin e) = "poor" ↔ 0 < e ∧ e ≤ 10) ∧
    (signalQualityOf (.fin e) = "none" ↔ e ≤ 0) ∧
    signalQualityOf (.fin 30) = "good" ∧
    signalQualityOf (.fin 0) = "none" ∧
    ¬ (JsNum.fin (0 : ℝ)).gtR 0 ∧
    (calculateAll lat lon slon).signalQuality =
      signalQualityOf (calculateElevation lat lon slon) ∧
    ((calculateAll lat lon slon).isVisible ↔
      (calculateElevation lat lon slon).gtR 0) := by
  refine ⟨?_, ?_, ?_, ?_, ?_, ?_, ?_, ?_, rfl, Iff.rfl⟩
  · rw [signalQualityOf_fin]
    split_ifs with h1 h2 h3 h4 <;>
      constructor <;> intro hh <;>
      first
        | rfl
        | assumption
        | (exact absurd hh (by decide))
        | linarith
  · rw [signalQualityOf_fin]
    split_ifs with h1 h2 h3 h4 <;>
      constructor <;> intro hh <;>
      first
        | (exact ⟨h2, by linarith⟩)
        | (exact absurd hh (by decide))
        | (exact absurd hh.2 (by linarith))
        | rfl
  · rw [signalQualityOf_fin]
    split_ifs with h1 h2 h3 h4 <;>
      constructor <;> intro hh <;>
      first
        | (exact ⟨h3, by linarith⟩)
        | (exact absurd hh (by decide))
        | (exact absurd hh.2 (by linarith))
        | rfl
  · rw [signalQualityOf_fin]
    split_ifs with h1 h2 h3 h4 <;>
      constructor <;> intro hh <;>
      first
        | (exact ⟨h4, by linarith⟩)
        | (exact absurd hh (by decide))
        | (exact absurd hh.2 (by linarith))
        | rfl
  · rw [signalQualityOf_fin]
    split_ifs with h1 h2 h3 h4 <;>
      constructor <;> intro hh <;>
      first
        | (exact absurd hh (by decide))
        | linarith
        | rfl
  · rw [signalQualityOf_fin]
    norm_num
  · rw [signalQualityOf_fin]
    norm_num
  · show ¬ ((0 : ℝ) < 0)
    norm_num

/-- Witness for C7: the observer at `(60°, 0°)` has `cosGamma = 1/2` for the
satellite at longitude 0, which is on the visible side and strictly below
the sub-satellite observer `(0°, 0°)` with `cosGamma = 1`; the theorem then
yields the strict elevation comparison. -/
theorem C7_witness :
    (EARTH_RADIUS / GEO_RADIUS ≤ cosGammaOf 60 0 0 ∧
      cosGammaOf 60 0 0 < cosGammaOf 0 0 0) ∧
    (calculateElevation 60 0 0).ltJ (calculateElevation 0 0 0) := by
  have hc60 : cosGammaOf 60 0 0 = 1 / 2 := by
    unfold cosGammaOf
    rw [show toRadians 60 = Real.pi / 3 by unfold toRadians; ring]
    norm_num [Real.cos_pi_div_three, toRadians_zero]
  have h1 : EARTH_RADIUS / GEO_RADIUS ≤ cosGammaOf 60 0 0 := by
    rw [hc60]
    linarith [earth_div_geo_bounds.2]
  have h2 : cosGammaOf 60 0 0 < cosGammaOf 0 0 0 := by
    rw [hc60, cosGammaOf_origin]
    norm_num
  exact ⟨⟨h1, h2⟩, (C7_elevation_monotone 60 0 0 0 0 0 0 0).1 h1 h2⟩

lemma cosGamma_dubai_eq :
    cosGammaOf 25 55 13 = Real.cos (toRadians 25) * Real.cos (toRadians 42) := by
  unfold cosGammaOf
  rw [show (13 : ℝ) - 55 = -42 by norm_num, toRadians_neg, Real.cos_neg]

lemma cosGamma_dubai_bounds :
    (0.64673 : ℝ) ≤ cosGammaOf 25 55 13 ∧ cosGammaOf 25 55 13 ≤ 0.67674 := by
  rw [cosGamma_dubai_eq]
  obtain ⟨h1, h2⟩ := cos25_bounds
  obtain ⟨h3, h4⟩ := cos42_bounds
  constructor <;> nlinarith

lemma elev_dubai_bounds :
    30 < elevValue (cosGammaOf 25 55 13) ∧ elevValue (cosGammaOf 25 55 13) < 90 := by
  obtain ⟨hc1, hc2⟩ := cosGamma_dubai_bounds
  have hk := earth_div_geo_bounds
  set c := cosGammaOf 25 55 13 with hc
  have hne1 : c ≠ 1 := by intro h; rw [h] at hc2; norm_num at hc2
  have hne2 : c ≠ -1 := by intro h; rw [h] at hc1; norm_num at hc1
  unfold elevValue
  rw [if_neg hne1, if_neg hne2]
  have hrad : 0 < 1 - c * c := by nlinarith
  have hspos : 0 < Real.sqrt (1 - c * c) := Real.sqrt_pos.mpr hrad
  have hsle : Real.sqrt (1 - c * c) ≤ 0.762725 :=
    sqrt_le_of_sq_le (by norm_num) (by nlinarith)
  have hr06 : (0.6 : ℝ) ≤ (c - EARTH_RADIUS / GEO_RADIUS) / Real.sqrt (1 - c * c) := by
    rw [le_div_iff₀ hspos]
    nlinarith
  constructor
  · rw [show (30 : ℝ) = toDegrees (Real.pi / 6) from toDegrees_pi_div_six.symm]
    apply toDegrees_lt_toDegrees
    have hπ := Real.pi_pos
    have hs3 : (5 / 3 : ℝ) < Real.sqrt 3 := (Real.lt_sqrt (by norm_num)).mpr (by norm_num)
    have htan : Real.tan (Real.pi / 6) < 0.6 := by
      rw [Real.tan_pi_div_six]
      rw [div_lt_iff₀ (by positivity : (0 : ℝ) < Real.sqrt 3)]
      nlinarith
    calc Real.pi / 6
        = Real.arctan (Real.tan (Real.pi / 6)) :=
          (Real.arctan_tan (by linarith) (by linarith)).symm
      _ < Real.arctan ((c - EARTH_RADIUS / GEO_RADIUS) / Real.sqrt (1 - c * c)) :=
          Real.arctan_strictMono (by linarith)
  · rw [show (90 : ℝ) = toDegrees (Real.pi / 2) from toDegrees_pi_div_two.symm]
    exact toDegrees_lt_toDegrees (Real.arctan_lt_pi_div_two _)

lemma azimuth_dubai_mem :
    90 < calculateAzimuth 25 55 13 ∧ calculateAzimuth 25 55 13 < 180 := by
  rw [calculateAzimuth_def]
  rw [if_neg (by norm_num : ¬ (25 : ℝ) < 0)]
  have hπ := Real.pi_pos
  have hxpos : 0 < Real.sin (toRadians 25) := by linarith [sin25_bounds.1]
  have hyeq : Real.tan (toRadians ((13 : ℝ) - 55)) = -Real.tan (toRadians 42) := by
    rw [show (13 : ℝ) - 55 = -42 by norm_num, toRadians_neg, Real.tan_neg]
  have h42 : 0 < Real.tan (toRadians 42) := by
    rw [Real.tan_eq_sin_div_cos]
    exact div_pos (by linarith [sin42_bounds.1]) (by linarith [cos42_bounds.1])
  have hyneg : Real.tan (toRadians ((13 : ℝ) - 55)) < 0 := by
    rw [hyeq]
    linarith
  rw [atan2_of_pos hxpos]
  set q := Real.tan (toRadians ((13 : ℝ) - 55)) / Real.sin (toRadians 25) with hq
  have harcneg : Real.arctan q < 0 :=
    arctan_neg_of_neg (div_neg_of_neg_of_pos hyneg hxpos)
  have harcgt := Real.neg_pi_div_two_lt_arctan q
  have hd1 : -90 < toDegrees (Real.arctan q) := by
    rw [← toDegrees_neg_pi_div_two]
    exact toDegrees_lt_toDegrees harcgt
  have hd2 : toDegrees (Real.arctan q) < 0 := by
    rw [← toDegrees_zero]
    exact toDegrees_lt_toDegrees harcneg
  rw [normalizeAngle_eq_self (by linarith) (by linarith)]
  constructor <;> linarith

lemma tilt_dubai_raw :
    ∃ t : ℝ, calculateLNBTilt 25 55 13 = JsNum.fin t ∧ t ≤ -45 := by
  rw [calculateLNBTilt_def]
  have htanpos : 0 < Real.tan (toRadians 25) := by linarith [tan25_bounds.1]
  rw [jsDiv_of_ne htanpos.ne']
  refine ⟨toDegrees (Real.arctan (Real.sin (toRadians ((13 : ℝ) - 55)) /
    Real.tan (toRadians 25))), rfl, ?_⟩
  have hseq : Real.sin (toRadians ((13 : ℝ) - 55)) = -Real.sin (toRadians 42) := by
    rw [show (13 : ℝ) - 55 = -42 by norm_num, toRadians_neg, Real.sin_neg]
  have hq1 : Real.sin (toRadians ((13 : ℝ) - 55)) / Real.tan (toRadians 25) ≤ -1 := by
    rw [div_le_iff₀ htanpos, hseq]
    have h1 := sin42_bounds.1
    have h2 := tan25_bounds.2
    nlinarith
  have harc : Real.arctan (Real.sin (toRadians ((13 : ℝ) - 55)) /
      Real.tan (toRadians 25)) ≤ -(Real.pi / 4) := by
    have h := Real.arctan_strictMono.monotone hq1
    rw [show Real.arctan (-1) = -(Real.pi / 4) by
      rw [show (-1 : ℝ) = -(1 : ℝ) from rfl, Real.arctan_neg, Real.arctan_one]] at h
    exact h
  calc toDegrees (Real.arctan (Real.sin (toRadians ((13 : ℝ) - 55)) /
        Real.tan (toRadians 25)))
      ≤ toDegrees (-(Real.pi / 4)) := toDegrees_le_toDegrees harc
    _ = -45 := toDegrees_neg_pi_div_four

lemma distance_dubai_mem :
    38000 ≤ calculateDistance 25 55 13 ∧ calculateDistance 25 55 13 ≤ 39000 := by
  rw [calculateDistance_def]
  obtain ⟨hc1, hc2⟩ := cosGamma_dubai_bounds
  set c := cosGammaOf 25 55 13 with hc
  have hlo : (38000 : ℝ) ^ 2 ≤ EARTH_RADIUS * EARTH_RADIUS + GEO_RADIUS * GEO_RADIUS -
      2 * EARTH_RADIUS * GEO_RADIUS * c := by
    unfold GEO_RADIUS EARTH_RADIUS GEO_ALTITUDE
    nlinarith
  have hhi : EARTH_RADIUS * EARTH_RADIUS + GEO_RADIUS * GEO_RADIUS -
      2 * EARTH_RADIUS * GEO_RADIUS * c ≤ (38999 : ℝ) ^ 2 := by
    unfold GEO_RADIUS EARTH_RADIUS GEO_ALTITUDE
    nlinarith
  have hd1 : (38000 : ℝ) ≤ Real.sqrt (EARTH_RADIUS * EARTH_RADIUS +
      GEO_RADIUS * GEO_RADIUS - 2 * EARTH_RADIUS * GEO_RADIUS * c) :=
    le_sqrt_of_sq_le (by norm_num) hlo
  have hd2 : Real.sqrt (EARTH_RADIUS * EARTH_RADIUS + GEO_RADIUS * GEO_RADIUS -
      2 * EARTH_RADIUS * GEO_RADIUS * c) ≤ 38999 :=
    sqrt_le_of_sq_le (by norm_num) hhi
  unfold jsRound
  constructor
  · have h1 : (38000 : ℤ) ≤ ⌊Real.sqrt (EARTH_RADIUS * EARTH_RADIUS +
        GEO_RADIUS * GEO_RADIUS - 2 * EARTH_RADIUS * GEO_RADIUS * c) + 1 / 2⌋ := by
      rw [Int.le_floor]
      push_cast
      linarith
    exact_mod_cast h1
  · have h2 := Int.floor_le (Real.sqrt (EARTH_RADIUS * EARTH_RADIUS +
      GEO_RADIUS * GEO_RADIUS - 2 * EARTH_RADIUS * GEO_RADIUS * c) + 1 / 2)
    linarith

lemma signalQualityOf_none_iff (e : ℝ) : signalQualityOf (.fin e) = "none" ↔ e ≤ 0 := by
  rw [signalQualityOf_fin]
  split_ifs with h1 h2 h3 h4 <;> constructor <;> intro hh <;>
    first
      | (exact absurd hh (by decide))
      | linarith
      | rfl

lemma cosGamma_8127_eq : cosGammaOf 0 0 81.27 = Real.sin (toRadians 8.73) := by
  unfold cosGammaOf
  rw [toRadians_zero, Real.cos_zero, one_mul,
    show (81.27 : ℝ) - 0 = 81.27 by norm_num]
  exact cos_toRadians_8127

/-- At `(0, 0, 81.27)` the observer sits just inside the geometric horizon:
the raw elevation is strictly positive but below 0.045 degrees, so it is
visible yet rounds to 0.0. -/
lemma elev_8127_bounds :
    0 < elevValue (cosGammaOf 0 0 81.27) ∧ elevValue (cosGammaOf 0 0 81.27) < 0.045 := by
  have hk := earth_div_geo_bounds
  have hs := sin873_bounds
  have hceq := cosGamma_8127_eq
  set c := cosGammaOf 0 0 81.27 with hc
  have hc1 : (0.1517495 : ℝ) ≤ c := by rw [hceq]; exact hs.1
  have hc2 : c ≤ 0.1518059 := by rw [hceq]; exact hs.2
  have hne1 : c ≠ 1 := by intro h; rw [h] at hc2; norm_num at hc2
  have hne2 : c ≠ -1 := by intro h; rw [h] at hc1; norm_num at hc1
  unfold elevValue
  rw [if_neg hne1, if_neg hne2]
  have hrad : 0 < 1 - c * c := by nlinarith
  have hspos : 0 < Real.sqrt (1 - c * c) := Real.sqrt_pos.mpr hrad
  have hnum : 0 < c - EARTH_RADIUS / GEO_RADIUS := by linarith
  have hrpos : 0 < (c - EARTH_RADIUS / GEO_RADIUS) / Real.sqrt (1 - c * c) :=
    div_pos hnum hspos
  have hsge : (0.98838 : ℝ) ≤ Real.sqrt (1 - c * c) :=
    le_sqrt_of_sq_le (by norm_num) (by nlinarith)
  have hrle : (c - EARTH_RADIUS / GEO_RADIUS) / Real.sqrt (1 - c * c) ≤ 0.000544 := by
    rw [div_le_iff₀ hspos]
    nlinarith
  have harctan_lt : Real.arctan ((c - EARTH_RADIUS / GEO_RADIUS) /
      Real.sqrt (1 - c * c)) < (c - EARTH_RADIUS / GEO_RADIUS) / Real.sqrt (1 - c * c) := by
    have h := Real.lt_tan (arctan_pos_of_pos hrpos) (Real.arctan_lt_pi_div_two _)
    rwa [Real.tan_arctan] at h
  constructor
  · exact toDegrees_pos_iff.mpr (arctan_pos_of_pos hrpos)
  · unfold toDegrees
    rw [div_lt_iff₀ Real.pi_pos]
    have hπ := Real.pi_gt_d6
    nlinarith

/-- Counterexample to claim C1: at `(0, 0, 81.27)` the raw elevation is
≈ 0.03°, so `isVisible` is true (it is computed from the raw value), yet
the returned (1-decimal-rounded) elevation field is exactly 0.0 — the
claimed equivalence "isVisible ⇔ returned elevation field > 0" fails. -/
theorem C1_visibility_counterexample :
    (calculateAll 0 0 81.27).isVisible ∧
    (calculateAll 0 0 81.27).elevation = JsNum.fin 0 := by
  have h := elev_8127_bounds
  constructor
  · rw [calculateAll_def, calculateElevation_eq]
    show (0 : ℝ) < elevValue (cosGammaOf 0 0 81.27)
    exact h.1
  · rw [calculateAll_def, calculateElevation_eq]
    show JsNum.fin (round (elevValue (cosGammaOf 0 0 81.27)) 1) = JsNum.fin 0
    congr 1
    rw [round_one_eq]
    rw [floor_add_half_eq 0 (by push_cast; nlinarith [h.1]) (by push_cast; nlinarith [h.2])]
    norm_num

/-- Amended claim C1: for valid inputs the azimuth field of the returned
`PointingSolution` lies in `[0, 360)`; `isVisible` holds iff the RAW
(pre-rounding) elevation is `> 0` (the rounded field can be `0.0` while
visible — see the counterexample); `signalQuality` is `"none"` iff not
visible; and `signalQuality` is a monotone step function of the RAW
elevation. -/
theorem C1_invariant_amended (lat lon slon lat2 lon2 slon2 : ℝ)
    (h1 : -90 ≤ lat) (h2 : lat ≤ 90) (_h3 : -180 ≤ lon) (_h4 : lon ≤ 180)
    (_h5 : -180 ≤ slon) (_h6 : slon ≤ 180) :
    (0 ≤ (calculateAll lat lon slon).azimuth ∧
      (calculateAll lat lon slon).azimuth < 360) ∧
    ((calculateAll lat lon slon).isVisible ↔
      (calculateElevation lat lon slon).gtR 0) ∧
    ((calculateAll lat lon slon).signalQuality = "none" ↔
      ¬ (calculateAll lat lon slon).isVisible) ∧
    ((calculateElevation lat lon slon).leJ (calculateElevation lat2 lon2 slon2) →
      qualityRank (calculateAll lat lon slon).signalQuality ≤
        qualityRank (calculateAll lat2 lon2 slon2).signalQuality) := by
  refine ⟨?_, Iff.rfl, ?_, ?_⟩
  · obtain ⟨ha1, ha2⟩ := calculateAzimuth_mem h1 h2 lon slon
    rw [calculateAll_def]
    show 0 ≤ round (calculateAzimuth lat lon slon) 1 ∧
      round (calculateAzimuth lat lon slon) 1 < 360
    have hu := round_one_le (calculateAzimuth lat lon slon)
    have hl := lt_round_one (calculateAzimuth lat lon slon)
    constructor <;> linarith
  · rw [calculateAll_def, calculateElevation_eq]
    show signalQualityOf (.fin (elevValue (cosGammaOf lat lon slon))) = "none" ↔
      ¬ (0 : ℝ) < elevValue (cosGammaOf lat lon slon)
    rw [signalQualityOf_none_iff, not_lt]
  · intro hle
    rw [calculateElevation_eq, calculateElevation_eq] at hle
    rw [calculateAll_def, calculateAll_def, calculateElevation_eq, calculateElevation_eq]
    exact qualityRank_mono hle

/-- Witness for the amended C1 at the valid input `(0, 0, 0)` (with the
second observer also `(0, 0, 0)`, whose elevation trivially dominates). -/
theorem C1_invariant_witness :
    ((-90 : ℝ) ≤ 0 ∧ (0 : ℝ) ≤ 90 ∧ (-180 : ℝ) ≤ 0 ∧ (0 : ℝ) ≤ 180) ∧
    (calculateElevation 0 0 0).leJ (calculateElevation 0 0 0) ∧
    (0 ≤ (calculateAll 0 0 0).azimuth ∧ (calculateAll 0 0 0).azimuth < 360) ∧
    qualityRank (calculateAll 0 0 0).signalQuality ≤
      qualityRank (calculateAll 0 0 0).signalQuality := by
  have hle : (calculateElevation 0 0 0).leJ (calculateElevation 0 0 0) := by
    rw [calculateElevation_origin]
    show (90 : ℝ) ≤ 90
    exact le_refl _
  have h := C1_invariant_amended 0 0 0 0 0 0 (by norm_num) (by norm_num)
    (by norm_num) (by norm_num) (by norm_num) (by norm_num)
  exact ⟨⟨by norm_num, by norm_num, by norm_num, by norm_num⟩, hle, h.1, h.2.2.2 hle⟩

/-- Modelled from the spec: "azimuth/elevation/tilt each rounded to 1
decimal place using standard round-half-away-from-zero on the
pre-multiplied value (value × 10, round to nearest integer, divide by
10)" — round-half-away-from-zero at one decimal place. -/
def specRoundHalfAwayFromZero (v : ℝ) : ℝ :=
  if 0 ≤ v then ((⌊v * 10 + 1 / 2⌋ : ℤ) : ℝ) / 10
  else -(((⌊-v * 10 + 1 / 2⌋ : ℤ) : ℝ) / 10)

/-- Counterexample to claim C8: at `v = -0.05` (an exact negative tie) the
source's `Math.round`-based rounding yields `0`, while
round-half-away-from-zero yields `-0.1`: JavaScript `Math.round` rounds
ties toward `+Infinity`, not away from zero. -/
theorem C8_rounding_counterexample :
    SatelliteCalculator.round (-(1 / 20)) 1 = 0 ∧
    specRoundHalfAwayFromZero (-(1 / 20)) = -(1 / 10) ∧
    SatelliteCalculator.round (-(1 / 20)) 1 ≠ specRoundHalfAwayFromZero (-(1 / 20)) := by
  have hcode : SatelliteCalculator.round (-(1 / 20)) 1 = 0 := by
    rw [round_one_eq]
    rw [show (-(1 / 20) : ℝ) * 10 + 1 / 2 = -(1 / 2) + 1 / 2 by norm_num]
    rw [floor_add_half_eq 0 (by norm_num) (by norm_num)]
    norm_num
  have hspec : specRoundHalfAwayFromZero (-(1 / 20)) = -(1 / 10) := by
    unfold specRoundHalfAwayFromZero
    rw [if_neg (by norm_num)]
    rw [show (-(-(1 / 20) : ℝ)) * 10 + 1 / 2 = 1 / 2 + 1 / 2 by norm_num]
    rw [floor_add_half_eq 1 (by norm_num) (by norm_num)]
    norm_num
  refine ⟨hcode, hspec, ?_⟩
  rw [hcode, hspec]
  norm_num

/-- Amended claim C8: the azimuth/elevation/lnbTilt fields of
`calculateAll` are the raw values rounded at 1 decimal place with
JavaScript `Math.round`, i.e. `⌊10·v + 1/2⌋ / 10` — round-half-toward-
positive-infinity.  This agrees with the spec's round-half-away-from-zero
for every `v ≥ 0` and for every `v` that is not an exact tie
(`10·v + 1/2 ∉ ℤ`); it differs only at exact negative ties (see the
counterexample). -/
theorem C8_rounding_amended (lat lon slon v : ℝ) :
    ((calculateAll lat lon slon).azimuth =
        SatelliteCalculator.round (calculateAzimuth lat lon slon) 1 ∧
      (calculateAll lat lon slon).elevation =
        roundJ (calculateElevation lat lon slon) 1 ∧
      (calculateAll lat lon slon).lnbTilt =
        roundJ (calculateLNBTilt lat lon slon) 1) ∧
    SatelliteCalculator.round v 1 = ((⌊v * 10 + 1 / 2⌋ : ℤ) : ℝ) / 10 ∧
    (0 ≤ v → SatelliteCalculator.round v 1 = specRoundHalfAwayFromZero v) ∧
    ((¬ ∃ n : ℤ, (n : ℝ) = v * 10 + 1 / 2) →
      SatelliteCalculator.round v 1 = specRoundHalfAwayFromZero v) := by
  refine ⟨⟨rfl, rfl, rfl⟩, round_one_eq v, ?_, ?_⟩
  · intro hv
    rw [round_one_eq]
    unfold specRoundHalfAwayFromZero
    rw [if_pos hv]
  · intro hv
    by_cases h0 : 0 ≤ v
    · rw [round_one_eq]
      unfold specRoundHalfAwayFromZero
      rw [if_pos h0]
    · rw [round_one_eq]
      unfold specRoundHalfAwayFromZero
      rw [if_neg h0]
      have hfl : ⌊v * 10 + 1 / 2⌋ < v * 10 + 1 / 2 := by
        rcases lt_or_eq_of_le (Int.floor_le (v * 10 + 1 / 2)) with h | h
        · exact h
        · exact absurd ⟨⌊v * 10 + 1 / 2⌋, h⟩ hv
      have hceil : ⌈v * 10 + 1 / 2⌉ = ⌊v * 10 + 1 / 2⌋ + 1 := by
        have hub := Int.ceil_le_floor_add_one (v * 10 + 1 / 2)
        have hlb : ⌊v * 10 + 1 / 2⌋ + 1 ≤ ⌈v * 10 + 1 / 2⌉ := by
          by_contra hcon
          push_neg at hcon
          have hc2 : ⌈v * 10 + 1 / 2⌉ ≤ ⌊v * 10 + 1 / 2⌋ := by omega
          have := Int.le_ceil (v * 10 + 1 / 2)
          have hc3 : (v * 10 + 1 / 2 : ℝ) ≤ (⌊v * 10 + 1 / 2⌋ : ℝ) := by
            calc (v * 10 + 1 / 2 : ℝ) ≤ (⌈v * 10 + 1 / 2⌉ : ℝ) := Int.le_ceil _
              _ ≤ (⌊v * 10 + 1 / 2⌋ : ℝ) := by exact_mod_cast hc2
          linarith
        omega
      have hneg : -v * 10 + 1 / 2 = -(v * 10 + 1 / 2) + ((1 : ℤ) : ℝ) := by
        push_cast
        ring
      rw [hneg, Int.floor_add_int, Int.floor_neg, hceil]
      push_cast
      ring

/-- Witness for the amended C8: at `v = 0.13` (nonnegative, not a tie) the
code rounding agrees with round-half-away-from-zero, and at `(0,0,0)` the
azimuth field is the rounded raw azimuth. -/
theorem C8_rounding_witness :
    (0 : ℝ) ≤ 13 / 100 ∧
    (¬ ∃ n : ℤ, (n : ℝ) = (-13 / 100 : ℝ) * 10 + 1 / 2) ∧
    SatelliteCalculator.round (13 / 100) 1 = specRoundHalfAwayFromZero (13 / 100) ∧
    SatelliteCalculator.round (-13 / 100) 1 = specRoundHalfAwayFromZero (-13 / 100) ∧
    (calculateAll 0 0 0).azimuth = SatelliteCalculator.round (calculateAzimuth 0 0 0) 1 := by
  have hnotie : ¬ ∃ n : ℤ, (n : ℝ) = (-13 / 100 : ℝ) * 10 + 1 / 2 := by
    rintro ⟨n, hn⟩
    have h5 : ((5 * n : ℤ) : ℝ) = -4 := by push_cast; linarith
    have h5z : (5 * n : ℤ) = -4 := by exact_mod_cast h5
    omega
  have h := C8_rounding_amended 0 0 0 (13 / 100)
  have h2 := C8_rounding_amended 0 0 0 (-13 / 100)
  exact ⟨by norm_num, hnotie, h.2.2.1 (by norm_num), h2.2.2.2 hnotie, h.1.1⟩

/-- Counterexample to claim C4: on the Dubai→Hotbird input
`(obsLat, obsLon, satLon) = (25, 55, 13)` the azimuth field returned by
`calculateAll` is below 249 (it is ≈ 115.1: the code's formula yields a
south-east bearing, not the claimed ≈ 249–251°), and the elevation field
exceeds 29 (it is ≈ 35.3, not the claimed 27–29). -/
theorem C4_dubai_counterexample :
    (calculateAll 25 55 13).azimuth < 249 ∧
    (calculateAll 25 55 13).elevation.gtR 29 := by
  constructor
  · rw [calculateAll_def]
    show round (calculateAzimuth 25 55 13) 1 < 249
    have h := azimuth_dubai_mem
    have hr := round_one_le (calculateAzimuth 25 55 13)
    linarith [h.2]
  · rw [calculateAll_def, calculateElevation_eq]
    show (29 : ℝ) < round (elevValue (cosGammaOf 25 55 13)) 1
    have h := elev_dubai_bounds
    have hr := lt_round_one (elevValue (cosGammaOf 25 55 13))
    linarith [h.1]

/-- Amended claim C4: on the Dubai→Hotbird input `(25, 55, 13)` the code
returns an azimuth field in `[90, 180.1]` (≈ 115.1; the code's azimuth
formula yields a south-east bearing rather than the physically correct
≈ 245–250° south-west one), an elevation field in `[30, 90.05)`
(≈ 35.3) with the satellite visible and signal quality "excellent",
a negative lnbTilt field (≈ -55.1), and a distance between 38,000 and
39,000 km. -/
theorem C4_dubai_amended :
    (90 ≤ (calculateAll 25 55 13).azimuth ∧ (calculateAll 25 55 13).azimuth ≤ 180.1) ∧
    (∃ e : ℝ, (calculateAll 25 55 13).elevation = JsNum.fin e ∧ 30 ≤ e ∧ e < 90.05) ∧
    (∃ t : ℝ, (calculateAll 25 55 13).lnbTilt = JsNum.fin t ∧ t < 0) ∧
    (calculateAll 25 55 13).isVisible ∧
    (calculateAll 25 55 13).signalQuality = "excellent" ∧
    (38000 ≤ calculateDistance 25 55 13 ∧ calculateDistance 25 55 13 ≤ 39000) := by
  obtain ⟨haz1, haz2⟩ := azimuth_dubai_mem
  obtain ⟨hel1, hel2⟩ := elev_dubai_bounds
  refine ⟨⟨?_, ?_⟩, ?_, ?_, ?_, ?_, distance_dubai_mem⟩
  · rw [calculateAll_def]
    show (90 : ℝ) ≤ round (calculateAzimuth 25 55 13) 1
    rw [round_one_eq]
    have h1 : (900 : ℤ) ≤ ⌊calculateAzimuth 25 55 13 * 10 + 1 / 2⌋ := by
      rw [Int.le_floor]
      push_cast
      linarith
    have h2 : ((900 : ℤ) : ℝ) ≤ (⌊calculateAzimuth 25 55 13 * 10 + 1 / 2⌋ : ℝ) := by
      exact_mod_cast h1
    push_cast at h2
    linarith
  · rw [calculateAll_def]
    show round (calculateAzimuth 25 55 13) 1 ≤ 180.1
    have hr := round_one_le (calculateAzimuth 25 55 13)
    linarith
  · rw [calculateAll_def, calculateElevation_eq]
    refine ⟨round (elevValue (cosGammaOf 25 55 13)) 1, rfl, ?_, ?_⟩
    · rw [round_one_eq]
      have h1 : (300 : ℤ) ≤ ⌊elevValue (cosGammaOf 25 55 13) * 10 + 1 / 2⌋ := by
        rw [Int.le_floor]
        push_cast
        linarith
      have h2 : ((300 : ℤ) : ℝ) ≤ (⌊elevValue (cosGammaOf 25 55 13) * 10 + 1 / 2⌋ : ℝ) := by
        exact_mod_cast h1
      push_cast at h2
      linarith
    · have hr := round_one_le (elevValue (cosGammaOf 25 55 13))
      linarith
  · obtain ⟨t, ht, htle⟩ := tilt_dubai_raw
    rw [calculateAll_def, ht]
    refine ⟨round t 1, rfl, ?_⟩
    have hr := round_one_le t
    linarith
  · rw [calculateAll_def, calculateElevation_eq]
    show (0 : ℝ) < elevValue (cosGammaOf 25 55 13)
    linarith
  · rw [calculateAll_def, calculateElevation_eq]
    show signalQualityOf (.fin (elevValue (cosGammaOf 25 55 13))) = "excellent"
    rw [signalQualityOf_fin, if_pos hel1]

end
